import Mathlib

/-!
# Verification of the Agentic RAG Chatbot retrieval pipeline

Shallow embedding of the retrieval pipeline of the Agentic-RAG-Chatbot-MCP
repository (`ingestion_agent.py`, `retrieval_agent.py`, `coordinator_agent.py`,
`llm_response_agent.py`, `mcp.py`) together with proofs of the specified
properties.

Modelling conventions:
* Document text and queries are `List Char` (Python strings, character-indexed).
* Embedding vectors are `List ℚ`: exact rationals stand in for the float32
  numerics of the external embedding model; every property proved here is
  independent of the concrete float values.
* The external collaborators (per-format document parsers, the sentence
  embedding model, the L2 normalization, the HTTP answer backend, the regex
  stub extractor) are parameters of the definitions; a parser that raises is
  modelled by returning `none`.
* The faiss vector index (`faiss.IndexFlatIP`) is an external library, not part
  of the source tree; its `search` is modelled from the spec (see
  `faissSearchIP` below).
* `send_mcp_message` prints and returns the message; emission is modelled by
  returning the ordered list of emitted messages.  The `trace_id` field is a
  fresh uuid, irrelevant to every claim, and is omitted from the embedding.
-/

/-- An embedding vector (float32 in the source, exact ℚ here). -/
abbrev Vec := List ℚ

/-- Inner product of two vectors, the faiss `IndexFlatIP` similarity score. -/
def dotIP (q v : Vec) : ℚ := (List.zipWith (· * ·) q v).sum

/-- `EMBED_DIM = 384` from `retrieval_agent.py`. -/
def EMBED_DIM : ℕ := 384

/-- `CHUNK_SIZE = 800` from `ingestion_agent.py`. -/
def CHUNK_SIZE : ℕ := 800

/-! ## Chunker (`ingestion_agent._chunk_text`) -/

/-- Python `str.strip()`: drop leading and trailing whitespace. -/
def pyStrip (l : List Char) : List Char :=
  ((l.dropWhile Char.isWhitespace).reverse.dropWhile Char.isWhitespace).reverse

/-- The slicing loop `[text[i:i+size] for i in range(0, len(text), size)]`,
with explicit fuel (`fuel ≥ l.length` suffices when `0 < size`). -/
def chunksOfAux (size : ℕ) : ℕ → List Char → List (List Char)
  | _, [] => []
  | 0, _ => []
  | fuel + 1, l => l.take size :: chunksOfAux size fuel (l.drop size)

/-- `_chunk_text` from `ingestion_agent.py`: strip the text, return `[]` when
nothing is left, otherwise slice into consecutive `size`-character pieces. -/
def chunk_text (size : ℕ) (text : List Char) : List (List Char) :=
  let t := pyStrip text
  if t = [] then [] else chunksOfAux size t.length t

/-! ## Data model -/

/-- The `meta` dict attached to each chunk in `process_document`. -/
structure ChunkMeta where
  filename : String
  chunk_index : ℕ
deriving DecidableEq, Repr, Inhabited

/-- One chunk dict `\x7b"text": ..., "meta": ...\x7d`. -/
structure Chunk where
  text : List Char
  meta : ChunkMeta
deriving DecidableEq, Repr, Inhabited

/-- A retrieval result dict `\x7b"score", "meta", "text"\x7d` from
`RetrievalAgent.retrieve`. -/
structure RetrievalResult where
  score : ℚ
  meta : ChunkMeta
  text : List Char
deriving DecidableEq, Repr

/-- The payload of an MCP message (a JSON dict in the source, one constructor
per message type used by the pipeline). -/
inductive Payload
  | DOCUMENT_PARSED (filename : String) (n_chunks : ℕ)
  | BUILD_INDEX (n_chunks : ℕ)
  | RETRIEVAL_RESULT (retrieved_context : List RetrievalResult) (query : List Char)
  | FINAL_RESPONSE (query : List Char) (answer : List Char)
      (retrieved : List RetrievalResult) (llm_raw : Option (List Char))
deriving DecidableEq

/-- An MCP message as built by `send_mcp_message` (`trace_id` omitted, see
module docstring). -/
structure MCPMessage where
  sender : String
  receiver : String
  type : String
  payload : Payload
deriving DecidableEq

/-! ## Vector index

The backing index is `faiss.IndexFlatIP(EMBED_DIM)`, an external library (not
part of the source tree), so its search is modelled from the spec. -/

/-- Ordering of search hits `(score, ordinal)`: higher score first, ties broken
by the lower ordinal. -/
def hitLE (a b : ℚ × ℕ) : Bool := decide (b.1 < a.1 ∨ (a.1 = b.1 ∧ a.2 ≤ b.2))

/-- Every stored vector scored by inner product with the query and paired with
its ordinal (append-order position). -/
def scoredHits (stored : List Vec) (q : Vec) : List (ℚ × ℕ) :=
  ((stored.map fun v => dotIP q v).enum).map fun p => (p.2, p.1)

/-- Modelled from the spec: `faiss.IndexFlatIP.search` (the faiss library is an
external dependency, missing from the source tree).  Spec §4.2: compute the
inner product of the query against every stored vector and return the `k`
highest-scoring `(score, ordinal)` pairs, ordered descending by score, ties
broken by lower ordinal; if the index holds fewer than `k` entries, all of them
are returned. -/
def faissSearchIP (stored : List Vec) (q : Vec) (k : ℕ) : List (ℚ × ℕ) :=
  ((scoredHits stored q).mergeSort hitLE).take k

inductive SearchError
  | DimensionMismatch
deriving DecidableEq, Repr

/-- Modelled from the spec: the faiss index is created with dimensionality
`EMBED_DIM`; searching with a query vector of any other dimensionality fails
with `DimensionMismatch` (spec §4.2 error conditions), leaving the stored
entries untouched (the state is returned alongside the result). -/
def faissSearchChecked (stored : List Vec) (q : Vec) (k : ℕ) :
    Except SearchError (List (ℚ × ℕ)) × List Vec :=
  if q.length = EMBED_DIM then (Except.ok (faissSearchIP stored q k), stored)
  else (Except.error SearchError.DimensionMismatch, stored)

/-! ## Retrieval agent (`retrieval_agent.py`) -/

/-- The mutable state of `RetrievalAgent`: the optional faiss index (`None`
until the first `build_index` call) and the two parallel lists `texts` and
`metadatas`.  The embedding model itself is external and appears as a
parameter `embed` (together with `normalize` for `faiss.normalize_L2`). -/
structure RetrievalAgent where
  index : Option (List Vec)
  metadatas : List ChunkMeta
  texts : List (List Char)
deriving DecidableEq

/-- `RetrievalAgent.__init__`. -/
def RetrievalAgent.init : RetrievalAgent :=
  { index := none, metadatas := [], texts := [] }

/-- `RetrievalAgent.build_index`: encode and normalize the chunk texts, create
the index on first use, append the vectors and extend the parallel lists. -/
def RetrievalAgent.build_index (embed : List Char → Vec) (normalize : Vec → Vec)
    (st : RetrievalAgent) (chunks : List Chunk) : RetrievalAgent :=
  let texts := chunks.map Chunk.text
  let vectors := texts.map fun t => normalize (embed t)
  let base := st.index.getD []
  { index := some (base ++ vectors)
    texts := st.texts ++ texts
    metadatas := st.metadatas ++ chunks.map Chunk.meta }

/-- `RetrievalAgent.retrieve`: empty result before any index is built or when
the index is empty; otherwise encode and normalize the query, search, and map
each returned ordinal back to its stored text and metadata. -/
def RetrievalAgent.retrieve (embed : List Char → Vec) (normalize : Vec → Vec)
    (st : RetrievalAgent) (query : List Char) (top_k : ℕ) : List RetrievalResult :=
  match st.index with
  | none => []
  | some stored =>
    if stored.length = 0 then []
    else
      let q := normalize (embed query)
      (faissSearchIP stored q top_k).map fun p =>
        { score := p.1, meta := st.metadatas.getD p.2 default,
          text := st.texts.getD p.2 [] }

/-- Module-level `handle_query`: retrieve, then emit the `RETRIEVAL_RESULT`
message and return the results. -/
def handle_query (embed : List Char → Vec) (normalize : Vec → Vec)
    (st : RetrievalAgent) (query : List Char) (top_k : ℕ) :
    List RetrievalResult × List MCPMessage :=
  let top := st.retrieve embed normalize query top_k
  (top, [{ sender := "RetrievalAgent", receiver := "LLMResponseAgent",
           type := "RETRIEVAL_RESULT",
           payload := Payload.RETRIEVAL_RESULT top query }])

/-! ## Chunker lemmas -/

/-- Arithmetic step of the chunk-count: removing one full-or-final slice. -/
theorem chunk_count_step (L size : ℕ) (hs : 0 < size) (hL : 1 ≤ L) :
    (L - size + size - 1) / size + 1 = (L + size - 1) / size := by
  rcases Nat.le_total size L with hc | hc
  · have e1 : L - size + size - 1 = L - 1 := by omega
    have e2 : L + size - 1 = (L - 1) + size := by omega
    rw [e1, e2, Nat.add_div_right _ hs]
  · have e1 : L - size + size - 1 = size - 1 := by omega
    have e2 : (L + size - 1) / size = 1 := by
      apply Nat.div_eq_of_lt_le <;> omega
    rw [e1, e2, Nat.div_eq_of_lt (by omega)]

theorem chunksOfAux_spec (size : ℕ) (hs : 0 < size) :
    ∀ (fuel : ℕ) (l : List Char), l.length ≤ fuel →
      (chunksOfAux size fuel l).flatten = l ∧
      (chunksOfAux size fuel l).length = (l.length + size - 1) / size := by
  intro fuel
  induction fuel with
  | zero =>
    intro l hl
    have : l = [] := List.length_eq_zero.mp (Nat.le_zero.mp hl)
    subst this
    exact ⟨rfl, (Nat.div_eq_of_lt (by simp only [List.length_nil]; omega : List.length [] + size - 1 < size)).symm⟩
  | succ fuel ih =>
    intro l hl
    match l with
    | [] =>
      exact ⟨rfl, (Nat.div_eq_of_lt (by simp only [List.length_nil]; omega : List.length [] + size - 1 < size)).symm⟩
    | c :: cs =>
      have hlen : (List.drop size (c :: cs)).length ≤ fuel := by
        simp only [List.length_drop, List.length_cons]
        simp only [List.length_cons] at hl
        omega
      obtain ⟨ihf, ihl⟩ := ih (List.drop size (c :: cs)) hlen
      constructor
      · simp [chunksOfAux, List.flatten_cons, ihf]
      · show (chunksOfAux size fuel (List.drop size (c :: cs))).length + 1 = _
        rw [ihl, List.length_drop]
        exact chunk_count_step (c :: cs).length size hs (by simp)

/-- **C2 (counterexample).**  The claim asserts that for every text `T` the
concatenation of the `chunk_text` output reconstructs `T` exactly and that the
number of chunks is `⌈len(T)/S⌉`.  The input is stripped first, so both parts
fail on the text `" a"` with size `1`: the single chunk `"a"` concatenates to
`"a" ≠ " a"`, and there is `1 ≠ ⌈2/1⌉ = 2` chunk. -/
theorem chunk_text_claim_counterexample :
    ¬ ((chunk_text 1 [' ', 'a']).flatten = [' ', 'a'] ∧
       (chunk_text 1 [' ', 'a']).length = ([' ', 'a'].length + 1 - 1) / 1) := by
  decide

/-- **C2 (amended).**  For every text `T` and size `S > 0`: the chunks
concatenate exactly to the stripped text `strip(T)`, and the number of chunks
is `⌈len(strip(T))/S⌉` (hence `0` for empty or whitespace-only input). -/
theorem chunk_text_spec (text : List Char) (size : ℕ) (hs : 0 < size) :
    (chunk_text size text).flatten = pyStrip text ∧
    (chunk_text size text).length = ((pyStrip text).length + size - 1) / size := by
  unfold chunk_text
  by_cases h : pyStrip text = []
  · simp only [h, if_pos rfl]
    exact ⟨rfl, (Nat.div_eq_of_lt (by simp only [List.length_nil]; omega : List.length [] + size - 1 < size)).symm⟩
  · simp only [if_neg h]
    exact chunksOfAux_spec size hs (pyStrip text).length (pyStrip text) le_rfl

/-- Witness for `chunk_text_spec` at the spec's own scenario: a 1700-character
text with chunk size 800 yields `⌈1700/800⌉ = 3` chunks that concatenate back
to the text. -/
theorem chunk_text_spec_witness :
    (0 < 800 ∧
      (chunk_text 800 (List.replicate 1700 'x')).flatten = pyStrip (List.replicate 1700 'x') ∧
      (chunk_text 800 (List.replicate 1700 'x')).length =
        ((pyStrip (List.replicate 1700 'x')).length + 800 - 1) / 800) :=
  ⟨by decide, chunk_text_spec (List.replicate 1700 'x') 800 (by decide)⟩

/-! ## Search lemmas -/

theorem hitLE_trans (a b c : ℚ × ℕ) (h₁ : hitLE a b) (h₂ : hitLE b c) : hitLE a c := by
  simp only [hitLE, decide_eq_true_eq] at h₁ h₂ ⊢
  rcases h₁ with h₁ | ⟨h₁, h₁'⟩ <;> rcases h₂ with h₂ | ⟨h₂, h₂'⟩
  · exact Or.inl (h₂.trans h₁)
  · exact Or.inl (h₂ ▸ h₁)
  · exact Or.inl (h₁ ▸ h₂)
  · exact Or.inr ⟨h₁.trans h₂, h₁'.trans h₂'⟩

theorem hitLE_total (a b : ℚ × ℕ) : hitLE a b || hitLE b a := by
  simp only [hitLE, Bool.or_eq_true, decide_eq_true_eq]
  rcases lt_trichotomy a.1 b.1 with h | h | h
  · exact Or.inr (Or.inl h)
  · rcases Nat.le_total a.2 b.2 with h' | h'
    · exact Or.inl (Or.inr ⟨h, h'⟩)
    · exact Or.inr (Or.inr ⟨h.symm, h'⟩)
  · exact Or.inl (Or.inl h)

theorem scoredHits_length (stored : List Vec) (q : Vec) :
    (scoredHits stored q).length = stored.length := by
  simp [scoredHits]

theorem scoredHits_map_snd (stored : List Vec) (q : Vec) :
    (scoredHits stored q).map Prod.snd = List.range stored.length := by
  unfold scoredHits
  rw [List.map_map]
  have h : (Prod.snd ∘ fun p : ℕ × ℚ => (p.2, p.1)) = Prod.fst := rfl
  rw [h, List.enum_map_fst, List.length_map]

theorem faissSearchIP_length (stored : List Vec) (q : Vec) (k : ℕ) :
    (faissSearchIP stored q k).length = min k stored.length := by
  simp [faissSearchIP, List.length_take, scoredHits_length]

theorem faissSearchIP_sorted (stored : List Vec) (q : Vec) (k : ℕ) :
    (faissSearchIP stored q k).Pairwise
      fun a b => b.1 < a.1 ∨ (a.1 = b.1 ∧ a.2 < b.2) := by
  have hsorted : ((scoredHits stored q).mergeSort hitLE).Pairwise fun a b => hitLE a b :=
    List.sorted_mergeSort hitLE_trans hitLE_total (scoredHits stored q)
  have htake : (faissSearchIP stored q k).Pairwise fun a b => hitLE a b :=
    hsorted.sublist (List.take_sublist k _)
  have hnodup : ((faissSearchIP stored q k).map Prod.snd).Nodup := by
    have h₁ : (((scoredHits stored q).mergeSort hitLE).map Prod.snd).Nodup := by
      have hperm : (((scoredHits stored q).mergeSort hitLE).map Prod.snd).Perm
          ((scoredHits stored q).map Prod.snd) :=
        (List.mergeSort_perm (scoredHits stored q) hitLE).map Prod.snd
      rw [hperm.nodup_iff, scoredHits_map_snd]
      exact List.nodup_range stored.length
    have hsub : ((faissSearchIP stored q k).map Prod.snd).Sublist
        (((scoredHits stored q).mergeSort hitLE).map Prod.snd) := by
      unfold faissSearchIP
      rw [List.map_take]
      exact List.take_sublist k _
    exact h₁.sublist hsub
  have hne : (faissSearchIP stored q k).Pairwise fun a b => a.2 ≠ b.2 :=
    List.pairwise_map.mp hnodup
  refine (htake.and hne).imp ?_
  rintro a b ⟨hle, hne2⟩
  simp only [hitLE, decide_eq_true_eq] at hle
  rcases hle with h | ⟨h₁, h₂⟩
  · exact Or.inl h
  · exact Or.inr ⟨h₁, lt_of_le_of_ne h₂ hne2⟩

theorem faissSearchIP_mem (stored : List Vec) (q : Vec) (k : ℕ) (p : ℚ × ℕ)
    (hp : p ∈ faissSearchIP stored q k) :
    p.2 < stored.length ∧ p.1 = dotIP q (stored.getD p.2 []) := by
  have h₁ : p ∈ (scoredHits stored q).mergeSort hitLE := List.mem_of_mem_take hp
  have h₂ : p ∈ scoredHits stored q := List.mem_mergeSort.mp h₁
  unfold scoredHits at h₂
  obtain ⟨r, hr, hrp⟩ := List.mem_map.mp h₂
  obtain ⟨i, s⟩ := r
  have hget : (stored.map fun v => dotIP q v)[i]? = some s :=
    List.mk_mem_enum_iff_getElem?.mp hr
  rw [List.getElem?_eq_some] at hget
  obtain ⟨hi, hv⟩ := hget
  have hi' : i < stored.length := by simpa using hi
  have hp2 : p.2 = i := by rw [← hrp]
  have hp1 : p.1 = s := by rw [← hrp]
  refine ⟨hp2 ▸ hi', ?_⟩
  rw [hp1, hp2, ← hv, List.getD_eq_getElem stored [] hi']
  simp [List.get_eq_getElem]

theorem faissSearchIP_all (stored : List Vec) (q : Vec) (k : ℕ)
    (hk : stored.length ≤ k) :
    ((faissSearchIP stored q k).map Prod.snd).Perm (List.range stored.length) := by
  unfold faissSearchIP
  rw [List.take_of_length_le (by simpa [scoredHits_length] using hk)]
  have h₁ : (((scoredHits stored q).mergeSort hitLE).map Prod.snd).Perm
      ((scoredHits stored q).map Prod.snd) :=
    (List.mergeSort_perm (scoredHits stored q) hitLE).map Prod.snd
  rw [scoredHits_map_snd] at h₁
  exact h₁

/-! ## Claim C1: top-k search shape -/

/-- **C1.**  A similarity search over an index holding `N` entries returns
`min k N` results for every `k`, ordered descending by score with ties broken
by the lower ordinal (earliest inserted wins); every returned pair carries an
in-range ordinal together with the inner-product score of the vector stored at
that ordinal; when the index holds at most `k` entries every ordinal is
returned exactly once; searching an empty index, and `retrieve` against an
agent whose index is empty or not yet built, return the empty list rather than
an error. -/
theorem search_returns_topk (stored : List Vec) (q : Vec) (k : ℕ) :
    (faissSearchIP stored q k).length = min k stored.length ∧
    ((faissSearchIP stored q k).Pairwise fun a b => b.1 < a.1 ∨ (a.1 = b.1 ∧ a.2 < b.2)) ∧
    (∀ p ∈ faissSearchIP stored q k,
        p.2 < stored.length ∧ p.1 = dotIP q (stored.getD p.2 [])) ∧
    (stored.length ≤ k →
        ((faissSearchIP stored q k).map Prod.snd).Perm (List.range stored.length)) ∧
    faissSearchIP [] q k = [] ∧
    (∀ (embed : List Char → Vec) (normalize : Vec → Vec) (m : List ChunkMeta)
        (ts : List (List Char)) (query : List Char) (top_k : ℕ),
      RetrievalAgent.retrieve embed normalize ⟨none, m, ts⟩ query top_k = [] ∧
      RetrievalAgent.retrieve embed normalize ⟨some [], m, ts⟩ query top_k = []) := by
  refine ⟨faissSearchIP_length stored q k, faissSearchIP_sorted stored q k,
    fun p hp => faissSearchIP_mem stored q k p hp, faissSearchIP_all stored q k, ?_, ?_⟩
  · simp [faissSearchIP, scoredHits]
  · intro embed normalize m ts query top_k
    exact ⟨rfl, by simp [RetrievalAgent.retrieve]⟩

/-- Witness for `search_returns_topk`: a two-entry index searched with
`top_k = 5` returns both ordinals. -/
theorem search_returns_topk_witness :
    ([[], []] : List Vec).length ≤ 5 ∧
    ((faissSearchIP ([[], []] : List Vec) [] 5).map Prod.snd).Perm
      (List.range ([[], []] : List Vec).length) :=
  ⟨by decide, (search_returns_topk [[], []] [] 5).2.2.2.1 (by decide)⟩

/-! ## Claim C5: append-only index growth -/

theorem foldl_build_index (embed : List Char → Vec) (normalize : Vec → Vec)
    (batches : List (List Chunk)) :
    ∀ st : RetrievalAgent,
      (batches.foldl (RetrievalAgent.build_index embed normalize) st).index.getD []
          = st.index.getD [] ++ batches.flatten.map (fun c => normalize (embed c.text)) ∧
      (batches.foldl (RetrievalAgent.build_index embed normalize) st).texts
          = st.texts ++ batches.flatten.map Chunk.text ∧
      (batches.foldl (RetrievalAgent.build_index embed normalize) st).metadatas
          = st.metadatas ++ batches.flatten.map Chunk.meta := by
  induction batches with
  | nil => intro st; simp
  | cons cs rest ih =>
    intro st
    obtain ⟨h1, h2, h3⟩ := ih (RetrievalAgent.build_index embed normalize st cs)
    refine ⟨?_, ?_, ?_⟩
    · rw [List.foldl_cons, h1]
      simp only [RetrievalAgent.build_index, Option.getD_some, List.map_map,
        Function.comp_def, List.flatten_cons, List.map_append, List.append_assoc]
    · rw [List.foldl_cons, h2]
      simp only [RetrievalAgent.build_index, List.flatten_cons, List.map_append,
        List.append_assoc]
    · rw [List.foldl_cons, h3]
      simp only [RetrievalAgent.build_index, List.flatten_cons, List.map_append,
        List.append_assoc]

/-- **C5.**  `build_index` only ever appends: one call extends the stored
vector list by exactly the encodings of the submitted chunks and extends the
two parallel lists by the chunk texts and metadatas, all in submission order,
leaving every prior vector, text and meta in place (so no prior entry is
removed, mutated, or has its ordinal reassigned); after any sequence of calls
starting from a fresh agent, the index size and the lengths of both parallel
lists all equal the total number of chunks submitted, with no deduplication. -/
theorem index_monotone_growth (embed : List Char → Vec) (normalize : Vec → Vec)
    (st : RetrievalAgent) (chunks : List Chunk) (batches : List (List Chunk)) :
    (RetrievalAgent.build_index embed normalize st chunks).index.getD []
        = st.index.getD [] ++ chunks.map (fun c => normalize (embed c.text)) ∧
    ((RetrievalAgent.build_index embed normalize st chunks).index.getD []).length
        = (st.index.getD []).length + chunks.length ∧
    (RetrievalAgent.build_index embed normalize st chunks).texts
        = st.texts ++ chunks.map Chunk.text ∧
    (RetrievalAgent.build_index embed normalize st chunks).metadatas
        = st.metadatas ++ chunks.map Chunk.meta ∧
    (((batches.foldl (RetrievalAgent.build_index embed normalize)
          RetrievalAgent.init).index.getD []).length = (batches.map List.length).sum ∧
      (batches.foldl (RetrievalAgent.build_index embed normalize)
          RetrievalAgent.init).texts.length = (batches.map List.length).sum ∧
      (batches.foldl (RetrievalAgent.build_index embed normalize)
          RetrievalAgent.init).metadatas.length = (batches.map List.length).sum) := by
  obtain ⟨h1, h2, h3⟩ := foldl_build_index embed normalize batches RetrievalAgent.init
  refine ⟨by simp [RetrievalAgent.build_index, List.map_map, Function.comp_def],
    by simp [RetrievalAgent.build_index], rfl, rfl, ?_, ?_, ?_⟩
  · rw [h1]; simp [RetrievalAgent.init, Function.comp_def]
  · rw [h2]; simp [RetrievalAgent.init, Function.comp_def]
  · rw [h3]; simp [RetrievalAgent.init, Function.comp_def]

/-! ## Claim C7: dimension mismatch -/

/-- **C7.**  Searching with a query vector whose dimensionality differs from
`EMBED_DIM = 384` fails with `DimensionMismatch` and leaves the index contents
unchanged. -/
theorem dimension_mismatch_fails (stored : List Vec) (q : Vec) (k : ℕ)
    (h : q.length ≠ EMBED_DIM) :
    (faissSearchChecked stored q k).1 = Except.error SearchError.DimensionMismatch ∧
    (faissSearchChecked stored q k).2 = stored := by
  simp [faissSearchChecked, h]

set_option maxRecDepth 4000 in
/-- Witness for `dimension_mismatch_fails`: the spec's own scenario, a query
vector of length 128 against the 384-dimensional index. -/
theorem dimension_mismatch_fails_witness :
    (List.replicate 128 (0:ℚ)).length ≠ EMBED_DIM ∧
    ((faissSearchChecked [] (List.replicate 128 (0:ℚ)) 5).1
        = Except.error SearchError.DimensionMismatch ∧
      (faissSearchChecked [] (List.replicate 128 (0:ℚ)) 5).2 = []) :=
  ⟨by decide, dimension_mismatch_fails [] (List.replicate 128 (0:ℚ)) 5 (by decide)⟩

/-! ## Claim C4: round-trip through the index -/

/-- **C4.**  After any sequence of `build_index` calls on a fresh agent, the
parallel lists hold, at every ordinal, exactly the text and meta of the chunk
submitted at that ordinal (submission order preserved end-to-end), and every
result returned by `retrieve` carries exactly the text and the meta of the
chunk originally submitted at the ordinal of its search hit. -/
theorem round_trip (embed : List Char → Vec) (normalize : Vec → Vec)
    (batches : List (List Chunk)) (query : List Char) (top_k : ℕ) :
    (∀ i, i < batches.flatten.length →
      (batches.foldl (RetrievalAgent.build_index embed normalize)
          RetrievalAgent.init).texts.getD i []
          = (batches.flatten.getD i default).text ∧
      (batches.foldl (RetrievalAgent.build_index embed normalize)
          RetrievalAgent.init).metadatas.getD i default
          = (batches.flatten.getD i default).meta) ∧
    (∀ r ∈ RetrievalAgent.retrieve embed normalize
        (batches.foldl (RetrievalAgent.build_index embed normalize) RetrievalAgent.init)
        query top_k,
      ∃ p ∈ faissSearchIP (batches.flatten.map fun c => normalize (embed c.text))
          (normalize (embed query)) top_k,
        r = { score := p.1,
              meta := (batches.flatten.getD p.2 default).meta,
              text := (batches.flatten.getD p.2 default).text }) := by
  obtain ⟨h1, h2, h3⟩ := foldl_build_index embed normalize batches RetrievalAgent.init
  have htext : ∀ i, i < batches.flatten.length →
      (batches.foldl (RetrievalAgent.build_index embed normalize)
          RetrievalAgent.init).texts.getD i [] = (batches.flatten.getD i default).text := by
    intro i hi
    rw [h2]
    simp only [RetrievalAgent.init, List.nil_append]
    have hlen : i < (batches.flatten.map Chunk.text).length := by
      simpa [Function.comp_def] using hi
    rw [List.getD_eq_getElem _ _ hlen, List.getElem_map, List.getD_eq_getElem _ _ hi]
  have hmeta : ∀ i, i < batches.flatten.length →
      (batches.foldl (RetrievalAgent.build_index embed normalize)
          RetrievalAgent.init).metadatas.getD i default
        = (batches.flatten.getD i default).meta := by
    intro i hi
    rw [h3]
    simp only [RetrievalAgent.init, List.nil_append]
    have hlen : i < (batches.flatten.map Chunk.meta).length := by
      simpa [Function.comp_def] using hi
    rw [List.getD_eq_getElem _ _ hlen, List.getElem_map, List.getD_eq_getElem _ _ hi]
  refine ⟨fun i hi => ⟨htext i hi, hmeta i hi⟩, ?_⟩
  intro r hr
  unfold RetrievalAgent.retrieve at hr
  split at hr
  · exact absurd hr (List.not_mem_nil r)
  · rename_i stored hidx
    have hstored : stored = batches.flatten.map fun c => normalize (embed c.text) := by
      rw [hidx] at h1
      simpa [RetrievalAgent.init] using h1
    by_cases hz : stored.length = 0
    · rw [if_pos hz] at hr
      exact absurd hr (List.not_mem_nil r)
    · rw [if_neg hz] at hr
      obtain ⟨p, hp, hpr⟩ := List.mem_map.mp hr
      have hmem := faissSearchIP_mem stored (normalize (embed query)) top_k p hp
      refine ⟨p, by rw [← hstored]; exact hp, ?_⟩
      have hplen : p.2 < batches.flatten.length := by
        have hb := hmem.1
        rw [hstored] at hb
        simpa [Function.comp_def] using hb
      rw [← hpr, htext p.2 hplen, hmeta p.2 hplen]

/-- Witness for `round_trip`: a one-chunk index resolves ordinal 0 back to the
submitted chunk. -/
theorem round_trip_witness :
    (0 < ([[{ text := ['a'], meta := { filename := "f", chunk_index := 0 } }]] :
        List (List Chunk)).flatten.length) ∧
    (([[{ text := ['a'], meta := { filename := "f", chunk_index := 0 } }]] :
        List (List Chunk)).foldl
          (RetrievalAgent.build_index (fun _ => []) id) RetrievalAgent.init).texts.getD 0 []
        = ((([[{ text := ['a'], meta := { filename := "f", chunk_index := 0 } }]] :
            List (List Chunk)).flatten.getD 0 default).text) ∧
    (([[{ text := ['a'], meta := { filename := "f", chunk_index := 0 } }]] :
        List (List Chunk)).foldl
          (RetrievalAgent.build_index (fun _ => []) id) RetrievalAgent.init).metadatas.getD 0 default
        = ((([[{ text := ['a'], meta := { filename := "f", chunk_index := 0 } }]] :
            List (List Chunk)).flatten.getD 0 default).meta) := by
  refine ⟨by decide, ?_, ?_⟩
  · exact ((round_trip (fun _ => []) id
      [[{ text := ['a'], meta := { filename := "f", chunk_index := 0 } }]] [] 5).1 0
        (by decide)).1
  · exact ((round_trip (fun _ => []) id
      [[{ text := ['a'], meta := { filename := "f", chunk_index := 0 } }]] [] 5).1 0
        (by decide)).2

/-! ## Ingestion agent (`ingestion_agent.py`) -/

/-- `os.path.basename` on a POSIX path: the component after the last slash. -/
def basename (path : String) : String := (path.splitOn ("/")).getLastD ("")

/-- `process_document`: obtain the document text from the external per-format
parser selected by extension (abstracted as `parse`; `parse path = none`
models a parser exception, which the source catches, logs, and turns into an
empty text), chunk it, wrap each chunk with its positional metadata, and emit
exactly one `DOCUMENT_PARSED` message.  `filename?` models the
`filename=None` default argument, resolved to the basename of the path. -/
def process_document (parse : String → Option (List Char))
    (file_path : String) (filename? : Option String) :
    List Chunk × List MCPMessage :=
  let filename := filename?.getD (basename file_path)
  let text := (parse file_path).getD []
  let chunks := (chunk_text CHUNK_SIZE text).enum.map fun p =>
    ({ text := p.2, meta := { filename := filename, chunk_index := p.1 } } : Chunk)
  (chunks,
    [{ sender := "IngestionAgent", receiver := "RetrievalAgent",
       type := "DOCUMENT_PARSED",
       payload := Payload.DOCUMENT_PARSED filename chunks.length }])

/-! ## LLM response agent (`llm_response_agent.py`) -/

/-- The dict returned by `call_llm` (`answer` plus the raw backend payload;
the JSON body of the backend is abstracted to its extracted answer text). -/
structure LLMResp where
  answer : List Char
  raw : Option (List Char)
deriving DecidableEq

/-- `format_prompt`: the builder list joined with newlines. -/
def format_prompt (query : List Char) (retrieved : List RetrievalResult) : List Char :=
  let header := ("You are a helpful assistant. Use only the context below to answer " ++
    "the question. If the answer is not present, say you don\x27t know.").toList
  let queryPart := "\n### Query:\n".toList ++ query ++ "\n".toList
  let ctxHeader := "### Context (top chunks):\n".toList
  let chunkParts := retrieved.enum.map fun p =>
    "[Chunk ".toList ++ (toString p.1).toList ++ "] source=".toList ++
      p.2.meta.filename.toList ++ " idx=".toList ++
      (toString p.2.meta.chunk_index).toList ++ " score=".toList ++
      (toString p.2.score).toList ++ "\n".toList ++ p.2.text ++ "\n---\n".toList
  let footer := ("\nProvide a concise answer, and list which chunk(s) were used " ++
    "as sources (by filename + chunk_index).").toList
  List.intercalate ("\n".toList) ([header, queryPart, ctxHeader] ++ chunkParts ++ [footer])

/-- `call_llm`: without a `GROQ_API_KEY` use the local stub — the regex
extractor (external `re` engine, abstracted as `extract_stub`) over the first
three retrieved texts joined by spaces, or the fixed no-context answer when
nothing was retrieved.  With a key, call the HTTP backend (`requests.post` +
`raise_for_status` + JSON decoding, abstracted as `backend`, returning either
the extracted answer text or the exception text `e`); every failure is turned
into the labeled `[LLM error] ...` answer instead of propagating. -/
def call_llm (api_key : Option String)
    (backend : List Char → Except (List Char) (List Char))
    (extract_stub : List Char → List Char)
    (prompt : List Char) (retrieved : List RetrievalResult) : LLMResp :=
  match api_key with
  | none =>
    if retrieved ≠ [] then
      { answer := extract_stub
          (List.intercalate [' '] ((retrieved.take 3).map RetrievalResult.text)),
        raw := none }
    else
      { answer := "(Stub Answer) No relevant context found.".toList, raw := none }
  | some _ =>
    match backend prompt with
    | Except.ok data => { answer := data, raw := some data }
    | Except.error e => { answer := "[LLM error] ".toList ++ e, raw := none }

/-- The final response dict `\x7b"answer", "retrieved"\x7d`. -/
structure Response where
  answer : List Char
  retrieved : List RetrievalResult
deriving DecidableEq

/-- `answer_query`: format the prompt, call the LLM, emit `FINAL_RESPONSE`,
return the answer together with the retrieved context. -/
def answer_query (api_key : Option String)
    (backend : List Char → Except (List Char) (List Char))
    (extract_stub : List Char → List Char)
    (query : List Char) (retrieved : List RetrievalResult) :
    Response × List MCPMessage :=
  let prompt := format_prompt query retrieved
  let llm_resp := call_llm api_key backend extract_stub prompt retrieved
  let answer := llm_resp.answer
  ({ answer := answer, retrieved := retrieved },
   [{ sender := "LLMResponseAgent", receiver := "UI", type := "FINAL_RESPONSE",
      payload := Payload.FINAL_RESPONSE query answer retrieved llm_resp.raw }])

/-! ## Coordinator (`coordinator_agent.py`) -/

/-- Step 1 of `handle_uploads_and_query`: parse and chunk every file in order,
accumulating the chunks (`all_chunks`) and the emitted messages
(`process_document` is called with `filename=p`). -/
def ingest_files (parse : String → Option (List Char)) (file_paths : List String) :
    List Chunk × List MCPMessage :=
  file_paths.foldl (fun acc p =>
    let r := process_document parse p (some p)
    (acc.1 ++ r.1, acc.2 ++ r.2)) ([], [])

/-- `handle_uploads_and_query`: ingest all files, emit `BUILD_INDEX` (sent
unconditionally in the source, before the `if all_chunks:` guard), call
`build_index` only when the accumulated chunk sequence is non-empty, retrieve
with the fixed `top_k = 5`, and answer.  Returns the response, the updated
retrieval-agent state, and every emitted message in order. -/
def handle_uploads_and_query (parse : String → Option (List Char))
    (embed : List Char → Vec) (normalize : Vec → Vec)
    (api_key : Option String)
    (backend : List Char → Except (List Char) (List Char))
    (extract_stub : List Char → List Char)
    (st : RetrievalAgent) (file_paths : List String) (query : List Char) :
    Response × RetrievalAgent × List MCPMessage :=
  let ingested := ingest_files parse file_paths
  let all_chunks := ingested.1
  let buildMsg : MCPMessage :=
    { sender := "CoordinatorAgent", receiver := "RetrievalAgent",
      type := "BUILD_INDEX", payload := Payload.BUILD_INDEX all_chunks.length }
  let st' := if all_chunks = [] then st
    else RetrievalAgent.build_index embed normalize st all_chunks
  let queried := handle_query embed normalize st' query 5
  let answered := answer_query api_key backend extract_stub query queried.1
  (answered.1, st', ingested.2 ++ [buildMsg] ++ queried.2 ++ answered.2)

/-! ## Ingestion lemmas -/

theorem getD_enum_map {α β : Type _} [Inhabited β] (l : List α) (f : ℕ × α → β)
    (i : ℕ) (hi : i < l.length) (d : β) :
    (l.enum.map f).getD i d = f (i, l.get ⟨i, hi⟩) := by
  have h1 : i < (l.enum.map f).length := by simpa using hi
  rw [List.getD_eq_getElem _ _ h1, List.getElem_map]
  congr 1
  rw [List.getElem_enum]
  simp [List.get_eq_getElem]

theorem process_document_fail (parse : String → Option (List Char))
    (file_path : String) (filename? : Option String)
    (h : parse file_path = none) :
    (process_document parse file_path filename?).1 = [] := by
  simp [process_document, h, chunk_text, pyStrip]

/-! ## Claim C9: chunk metadata -/

/-- **C9.**  Every chunk produced by `process_document` carries a
`chunk_index` equal to its zero-based position in the chunk sequence of its
document and a `filename` equal to the identifier of the document (the
`filename` argument, defaulting to the basename of the path). -/
theorem chunk_meta_positions (parse : String → Option (List Char))
    (file_path : String) (filename? : Option String) :
    ∀ i, i < (process_document parse file_path filename?).1.length →
      ((process_document parse file_path filename?).1.getD i default).meta
        = { filename := filename?.getD (basename file_path), chunk_index := i } := by
  intro i hi
  have hi' : i < (chunk_text CHUNK_SIZE ((parse file_path).getD [])).length := by
    simpa [process_document] using hi
  show (((chunk_text CHUNK_SIZE ((parse file_path).getD [])).enum.map fun p =>
      Chunk.mk p.2 (ChunkMeta.mk (filename?.getD (basename file_path)) p.1)).getD
        i default).meta = _
  rw [getD_enum_map _ _ i hi']

/-- Witness for `chunk_meta_positions`: a one-character document produces one
chunk with `chunk_index = 0` and the given filename. -/
theorem chunk_meta_positions_witness :
    0 < (process_document (fun _ => some ['a']) "f.txt" (some ("f.txt"))).1.length ∧
    ((process_document (fun _ => some ['a']) "f.txt" (some ("f.txt"))).1.getD 0 default).meta
      = { filename := (some ("f.txt")).getD (basename ("f.txt")), chunk_index := 0 } :=
  ⟨by decide, chunk_meta_positions (fun _ => some ['a']) "f.txt" (some ("f.txt")) 0 (by decide)⟩

/-! ## Claim C10: DOCUMENT_PARSED is always emitted -/

/-- **C10.**  `process_document` emits exactly one `DOCUMENT_PARSED` message,
carrying the filename and the chunk count, on every path — including the
parse-failure path, where the chunk list (and hence `n_chunks`) is empty. -/
theorem document_parsed_always (parse : String → Option (List Char))
    (file_path : String) (filename? : Option String) :
    (process_document parse file_path filename?).2
      = [{ sender := "IngestionAgent", receiver := "RetrievalAgent",
           type := "DOCUMENT_PARSED",
           payload := Payload.DOCUMENT_PARSED (filename?.getD (basename file_path))
             (process_document parse file_path filename?).1.length }] ∧
    (parse file_path = none → (process_document parse file_path filename?).1 = []) :=
  ⟨rfl, fun h => process_document_fail parse file_path filename? h⟩

/-- Witness for `document_parsed_always`: a failing parse still emits the
message, with zero chunks. -/
theorem document_parsed_always_witness :
    (fun _ : String => (none : Option (List Char))) "f.txt" = none ∧
    (process_document (fun _ => none) "f.txt" (some ("f.txt"))).1 = [] :=
  ⟨rfl, (document_parsed_always (fun _ => none) "f.txt" (some ("f.txt"))).2 rfl⟩

/-! ## Coordinator lemmas -/

theorem ingest_foldl (parse : String → Option (List Char)) :
    ∀ (paths : List String) (acc : List Chunk × List MCPMessage),
      paths.foldl (fun acc p =>
          let r := process_document parse p (some p)
          (acc.1 ++ r.1, acc.2 ++ r.2)) acc
        = (acc.1 ++ (paths.map fun p => (process_document parse p (some p)).1).flatten,
           acc.2 ++ (paths.map fun p => (process_document parse p (some p)).2).flatten) := by
  intro paths
  induction paths with
  | nil => intro acc; simp
  | cons p rest ih =>
    intro acc
    rw [List.foldl_cons, ih]
    simp [List.append_assoc]

theorem ingest_files_eq (parse : String → Option (List Char)) (file_paths : List String) :
    ingest_files parse file_paths
      = ((file_paths.map fun p => (process_document parse p (some p)).1).flatten,
         (file_paths.map fun p => (process_document parse p (some p)).2).flatten) := by
  unfold ingest_files
  rw [ingest_foldl parse file_paths ([], [])]
  simp

/-! ## Claim C6: failure tolerance during ingestion -/

/-- **C6.**  A parsing failure for one file yields zero chunks for that file,
and ingestion of a batch containing it accumulates exactly the chunks of the
remaining files, in order — the failure never aborts the run. -/
theorem parse_failure_tolerated (parse : String → Option (List Char))
    (xs ys : List String) (p : String) (hp : parse p = none) :
    (process_document parse p (some p)).1 = [] ∧
    (ingest_files parse (xs ++ p :: ys)).1
      = (ingest_files parse xs).1 ++ (ingest_files parse ys).1 := by
  have hempty : (process_document parse p (some p)).1 = [] :=
    process_document_fail parse p (some p) hp
  refine ⟨hempty, ?_⟩
  rw [ingest_files_eq parse (xs ++ p :: ys), ingest_files_eq parse xs,
    ingest_files_eq parse ys]
  simp [List.map_append, List.flatten_append, hempty]

/-- Witness for `parse_failure_tolerated`: a failing middle file between two
good ones contributes nothing while the chunks of both neighbours survive. -/
theorem parse_failure_tolerated_witness :
    ((fun q : String => if q = "bad" then none else some ['a']) "bad" = none) ∧
    ((process_document (fun q => if q = "bad" then none else some ['a'])
        "bad" (some ("bad"))).1 = [] ∧
      (ingest_files (fun q => if q = "bad" then none else some ['a'])
          (["g1"] ++ "bad" :: ["g2"])).1
        = (ingest_files (fun q => if q = "bad" then none else some ['a']) ["g1"]).1
          ++ (ingest_files (fun q => if q = "bad" then none else some ['a']) ["g2"]).1) :=
  ⟨by decide,
    parse_failure_tolerated (fun q => if q = "bad" then none else some ['a'])
      ["g1"] ["g2"] "bad" (by decide)⟩

/-! ## Claim C3: the BUILD_INDEX hand-off -/

theorem handle_uploads_state (parse : String → Option (List Char))
    (embed : List Char → Vec) (normalize : Vec → Vec) (api_key : Option String)
    (backend : List Char → Except (List Char) (List Char))
    (extract_stub : List Char → List Char) (st : RetrievalAgent)
    (file_paths : List String) (query : List Char) :
    (handle_uploads_and_query parse embed normalize api_key backend extract_stub
        st file_paths query).2.1
      = if (ingest_files parse file_paths).1 = [] then st
        else RetrievalAgent.build_index embed normalize st
          (ingest_files parse file_paths).1 := rfl

theorem handle_uploads_messages (parse : String → Option (List Char))
    (embed : List Char → Vec) (normalize : Vec → Vec) (api_key : Option String)
    (backend : List Char → Except (List Char) (List Char))
    (extract_stub : List Char → List Char) (st : RetrievalAgent)
    (file_paths : List String) (query : List Char) :
    (handle_uploads_and_query parse embed normalize api_key backend extract_stub
        st file_paths query).2.2
      = (ingest_files parse file_paths).2
        ++ [{ sender := "CoordinatorAgent", receiver := "RetrievalAgent",
              type := "BUILD_INDEX",
              payload := Payload.BUILD_INDEX (ingest_files parse file_paths).1.length }]
        ++ (handle_query embed normalize
              (handle_uploads_and_query parse embed normalize api_key backend
                extract_stub st file_paths query).2.1 query 5).2
        ++ (answer_query api_key backend extract_stub query
              (handle_query embed normalize
                (handle_uploads_and_query parse embed normalize api_key backend
                  extract_stub st file_paths query).2.1 query 5).1).2 := rfl

/-- **C3 (counterexample).**  One file whose parse fails: the accumulated
chunk sequence is empty, yet a `BUILD_INDEX` envelope (payload `n_chunks = 0`)
is still emitted — the source sends it before the `if all_chunks:` guard, so
only the `build_index` call is skipped, not the envelope. -/
theorem build_index_envelope_counterexample :
    (ingest_files (fun _ => none) ["f.txt"]).1 = [] ∧
    { sender := "CoordinatorAgent", receiver := "RetrievalAgent",
      type := "BUILD_INDEX", payload := Payload.BUILD_INDEX 0 } ∈
      (handle_uploads_and_query (fun _ => none) (fun _ => []) id none
        (fun _ => Except.error []) id RetrievalAgent.init ["f.txt"] []).2.2 := by
  constructor
  · rfl
  · rw [handle_uploads_messages]
    simp [ingest_files_eq, process_document_fail (fun _ => none) "f.txt"
      (some ("f.txt")) rfl]

/-- **C3 (amended).**  The `BUILD_INDEX` envelope, with `n_chunks` equal to
the accumulated chunk count, is always emitted — even when the chunk sequence
is empty; `build_index` itself is skipped exactly when the sequence is empty
(the agent state is unchanged), and otherwise is called with the full
accumulated sequence. -/
theorem build_index_envelope (parse : String → Option (List Char))
    (embed : List Char → Vec) (normalize : Vec → Vec) (api_key : Option String)
    (backend : List Char → Except (List Char) (List Char))
    (extract_stub : List Char → List Char) (st : RetrievalAgent)
    (file_paths : List String) (query : List Char) :
    { sender := "CoordinatorAgent", receiver := "RetrievalAgent",
      type := "BUILD_INDEX",
      payload := Payload.BUILD_INDEX (ingest_files parse file_paths).1.length } ∈
      (handle_uploads_and_query parse embed normalize api_key backend extract_stub
        st file_paths query).2.2 ∧
    ((ingest_files parse file_paths).1 = [] →
      (handle_uploads_and_query parse embed normalize api_key backend extract_stub
        st file_paths query).2.1 = st) ∧
    ((ingest_files parse file_paths).1 ≠ [] →
      (handle_uploads_and_query parse embed normalize api_key backend extract_stub
          st file_paths query).2.1
        = RetrievalAgent.build_index embed normalize st
            (ingest_files parse file_paths).1) := by
  refine ⟨?_, ?_, ?_⟩
  · rw [handle_uploads_messages]
    simp
  · intro h
    rw [handle_uploads_state, if_pos h]
  · intro h
    rw [handle_uploads_state, if_neg h]

/-- Witness for `build_index_envelope`: with no files the chunk sequence is
empty and the agent state is returned unchanged. -/
theorem build_index_envelope_witness :
    (ingest_files (fun _ => none) []).1 = [] ∧
    (handle_uploads_and_query (fun _ => none) (fun _ => []) id none
      (fun _ => Except.error []) id RetrievalAgent.init [] []).2.1
      = RetrievalAgent.init :=
  ⟨rfl, (build_index_envelope (fun _ => none) (fun _ => []) id none
    (fun _ => Except.error []) id RetrievalAgent.init [] []).2.1 rfl⟩

/-! ## Claim C8: the answer stage is total -/

/-- **C8.**  The answer stage always produces an answer: when the backend call
fails (exception text `e`), the answer is the labeled error string
`[LLM error] e` and the retrieved context is still returned (the pipeline does
not crash); when no backend is configured and nothing was retrieved, the
answer is the fixed no-relevant-context message. -/
theorem answer_stage_total (api_key : String)
    (backend : List Char → Except (List Char) (List Char))
    (extract_stub : List Char → List Char) (query : List Char)
    (retrieved : List RetrievalResult) (e : List Char)
    (hfail : backend (format_prompt query retrieved) = Except.error e) :
    ((answer_query (some api_key) backend extract_stub query retrieved).1.answer
        = "[LLM error] ".toList ++ e ∧
      (answer_query (some api_key) backend extract_stub query retrieved).1.retrieved
        = retrieved) ∧
    (answer_query none backend extract_stub query []).1.answer
      = "(Stub Answer) No relevant context found.".toList := by
  refine ⟨⟨?_, rfl⟩, ?_⟩
  · simp [answer_query, call_llm, hfail]
  · simp [answer_query, call_llm]

/-- Witness for `answer_stage_total`: a backend that always raises. -/
theorem answer_stage_total_witness :
    ((fun _ : List Char => (Except.error ['x'] : Except (List Char) (List Char)))
        (format_prompt [] []) = Except.error ['x']) ∧
    (((answer_query (some ("k")) (fun _ => Except.error ['x']) id [] []).1.answer
        = "[LLM error] ".toList ++ ['x'] ∧
      (answer_query (some ("k")) (fun _ => Except.error ['x']) id [] []).1.retrieved
        = []) ∧
      (answer_query none (fun _ => Except.error ['x']) id [] []).1.answer
        = "(Stub Answer) No relevant context found.".toList) :=
  ⟨rfl, answer_stage_total ("k") (fun _ => Except.error ['x']) id [] [] ['x'] rfl⟩
